import Mathlib

/-!
Shallow embedding of the computational core of `HouseHeatingCurve.py` over exact
rationals, together with theorems settling the specification claims about it.

Conventions of the embedding:
* Python floats become `ℚ`; every numeric literal of the source is transcribed
  as the exact rational it denotes (e.g. `0.0177` is `177/10000`, `float(8/30)`
  is `8/30`).
* Date strings (dictionary keys such as `"2019-09-12"`) become `ℕ`; the code
  only ever compares them for equality and the analysis-window filter happens
  before the functions embedded here.
* The mutable loops of the source become folds / structural recursions carrying
  the loop state explicitly.
* `pylab.corrcoef` involves a square root, so the Pearson coefficient is
  captured by the decidable relation `Corrcoef` that characterises it exactly
  (square and sign), keeping the development computable.
-/

namespace HouseHeating

/-- Config constant `HoursForHeatingADay = float(22.0)` (source line 112). -/
def HoursForHeatingADay : ℚ := 22

/-- Config constant `EnergyPerCubicMeterGas = float(31.65/3.6)` (source line 91). -/
def EnergyPerCubicMeterGas : ℚ := (633/20) / (18/5)

/-- Config constant `CubicMetersGasADayForWarmWaterAndCooking = float(8/30)` (source line 92). -/
def CubicMetersGasADayForWarmWaterAndCooking : ℚ := 8/30

/-- Config constant `TotalUsageCorrectionFactor = float(0.987755312791)` (source line 101). -/
def TotalUsageCorrectionFactor : ℚ := 987755312791/1000000000000

/-- Python `round(q, 3)`: rounding to three decimal places (the source uses it on
the correlation, on electricity samples, and on several report values). Python
uses banker's rounding at exact half-thousandths; `round` here rounds half up.
The two agree off the half-thousandth ties, which never occur in the claims. -/
def round3 (q : ℚ) : ℚ := ((round (q * 1000) : ℤ) : ℚ) / 1000

/-- Python `int(q)`: truncation toward zero (used on the energy totals in
`PlotEnergyDistribution`). -/
def ratTrunc (q : ℚ) : ℤ := if q < 0 then ⌈q⌉ else ⌊q⌋

/-- `ConvertGasTokWh` (source lines 341-342):
`(Gas - CubicMetersGasADayForWarmWaterAndCooking) * EnergyPerCubicMeterGas`. -/
def ConvertGasTokWh (Gas : ℚ) : ℚ :=
  (Gas - CubicMetersGasADayForWarmWaterAndCooking) * EnergyPerCubicMeterGas

/-- Temperature bins of the degree-day table, `EnergyTemperatureList`
(source line 160): `-30.0, -29.5, ..., 30.0` in half-degree steps. -/
def EnergyTemperatureList : List ℚ := [-30, -59/2, -29, -57/2, -28, -55/2, -27, -53/2, -26, -51/2, -25, -49/2, -24, -47/2, -23, -45/2, -22, -43/2, -21, -41/2, -20, -39/2, -19, -37/2, -18, -35/2, -17, -33/2, -16, -31/2, -15, -29/2, -14, -27/2, -13, -25/2, -12, -23/2, -11, -21/2, -10, -19/2, -9, -17/2, -8, -15/2, -7, -13/2, -6, -11/2, -5, -9/2, -4, -7/2, -3, -5/2, -2, -3/2, -1, -1/2, 0, 1/2, 1, 3/2, 2, 5/2, 3, 7/2, 4, 9/2, 5, 11/2, 6, 13/2, 7, 15/2, 8, 17/2, 9, 19/2, 10, 21/2, 11, 23/2, 12, 25/2, 13, 27/2, 14, 29/2, 15, 31/2, 16, 33/2, 17, 35/2, 18, 37/2, 19, 39/2, 20, 41/2, 21, 43/2, 22, 45/2, 23, 47/2, 24, 49/2, 25, 51/2, 26, 53/2, 27, 55/2, 28, 57/2, 29, 59/2, 30]

/-- Days-per-year histogram `DaysPerYearAverageTemperature` (source line 162),
each float literal transcribed as the exact rational it denotes. -/
def DaysPerYearAverageTemperature : List ℚ := [0, 0, 0, 0, 0, 0, 0, 0, 0, 0, 0, 0, 0, 0, 0, 0, 0, 0, 0, 0, 0, 0, 0, 0, 0, 0, 0, 0, 0, 0, 0, 177/10000, 0, 5311/100000, 5311/100000, 5311/100000, 177/10000, 177/10000, 3541/50000, 332/3125, 5311/100000, 6197/50000, 2833/20000, 3541/100000, 38953/100000, 11509/50000, 10181/25000, 37183/100000, 37183/100000, 51347/100000, 6861/12500, 79677/100000, 48691/50000, 32313/25000, 131023/100000, 27267/20000, 208929/100000, 205387/100000, 246111/100000, 6861/2500, 14023/4000, 398381/100000, 428481/100000, 231061/50000, 100569/20000, 566587/100000, 313393/50000, 158467/25000, 323131/50000, 727709/100000, 810927/100000, 819779/100000, 27444/3125, 450613/50000, 443531/50000, 104243/12500, 830403/100000, 202289/25000, 764891/100000, 842797/100000, 142709/20000, 768433/100000, 92513/12500, 15829/2000, 756039/100000, 167497/20000, 413431/50000, 214683/25000, 27776/3125, 104907/12500, 118629/12500, 841027/100000, 848109/100000, 202289/25000, 21081/3125, 658657/100000, 118629/20000, 483369/100000, 449727/100000, 21247/5000, 4183/1250, 148729/50000, 269129/100000, 175287/100000, 155811/100000, 162893/100000, 131023/100000, 113317/100000, 70823/100000, 79677/100000, 9561/20000, 26559/50000, 6197/25000, 301/1000, 3187/20000, 8853/100000, 5311/100000, 177/10000, 177/10000, 177/10000, 0]

/-- Loop state of `CalculateDaysPerYearBelowTemperature` (source lines 212-215):
`LowValue`, `HighValue`, `HighValueTemperature`, `HighValueFound`. -/
structure DState where
  L : ℚ
  H : ℚ
  HT : ℚ
  F : Bool
  deriving DecidableEq

/-- One iteration of the loop body of `CalculateDaysPerYearBelowTemperature`
(source lines 216-228), `td` being the current `(temp, day)` pair. -/
def dstep (T : ℚ) (s : DState) (td : ℚ × ℚ) : DState :=
  if td.1 < T then { s with L := s.L + td.2 }
  else if td.1 = T then ⟨s.L + td.2, s.L + td.2, td.1, true⟩
  else if s.F then s else ⟨s.L, s.L + td.2, td.1, true⟩

/-- The zipped table iterated by `CalculateDaysPerYearBelowTemperature`
(`zip(EnergyTemperatureList, DaysPerYearAverageTemperature)`, source line 216). -/
def zipTD : List (ℚ × ℚ) := List.zip EnergyTemperatureList DaysPerYearAverageTemperature

/-- `CalculateDaysPerYearBelowTemperature` (source lines 211-231): fold the loop
body over the zipped table, then interpolate with
`Fraction = 1.0 - ((HighValueTemperature - Temperature)/0.5)` and
`DaysPerYear = LowValue + Fraction*(HighValue - LowValue)`. -/
def CalculateDaysPerYearBelowTemperature (T : ℚ) : ℚ :=
  let s := zipTD.foldl (dstep T) ⟨0, 0, 0, false⟩
  s.L + (1 - (s.HT - T) / (1/2)) * (s.H - s.L)

/-- A per-day value dictionary appended by `CreateDictionaryOfData`: each Python
`ValueDict` carries exactly one of the four field keys (source lines 344-393).
The source stores the energy value as the string of the float and parses it back
with `float(...)` in `GetDataListsFromDictionary`; that round trip is the
identity on the values involved, so the value is kept as a rational here. -/
inductive Entry where
  | indoorT (v : ℚ)
  | electricE (v : ℚ)
  | outdoorT (v : ℚ)
  | energyE (v : ℚ)
  deriving DecidableEq

/-- The `collections.OrderedDict` built by `CreateDictionaryOfData`: an
association list from date to the list of `ValueDict`s appended for that date,
in insertion order (Python dictionaries preserve insertion order of keys). -/
abbrev Dict := List (ℕ × List Entry)

/-- An item of a Domoticz temperature query result: fields `d` and `ta`. -/
structure TItem where
  d : ℕ
  ta : ℚ
  deriving DecidableEq

/-- An item of a Domoticz counter query result: fields `d` and `v`. -/
structure VItem where
  d : ℕ
  v : ℚ
  deriving DecidableEq

/-- An item of the direct heating-energy query result: fields `d`, `v_max`, `v_min`. -/
structure MItem where
  d : ℕ
  vmax : ℚ
  vmin : ℚ
  deriving DecidableEq

/-- The repeated insertion idiom of `CreateDictionaryOfData` (source lines
350-355 and its three copies): append the value dict to the date's list if the
date is already a key, otherwise add the date with a fresh one-element list. -/
def insertObs (D : Dict) (d : ℕ) (e : Entry) : Dict :=
  if d ∈ D.map Prod.fst then
    D.map fun p => if p.1 = d then (p.1, p.2 ++ [e]) else p
  else
    D ++ [(d, [e])]

/-- One source loop of `CreateDictionaryOfData`: insert a list of already
tagged `(date, ValueDict)` observations in order. -/
def insertAll (D : Dict) (L : List (ℕ × Entry)) : Dict :=
  L.foldl (fun D p => insertObs D p.1 p.2) D

/-- `CreateDictionaryOfData` (source lines 344-394). The four source loops run
in this fixed order: indoor and electricity (only when
`EstimateAdditionalInternalAndExternalEnergy`), then outdoor, then heating.
In the source a single `HeatingEnergyData` argument is interpreted as gas items
(`v`) or direct energy items (`v_max`/`v_min`) depending on
`UseGasDataForHeatingEnergyEstimation`; the two interpretations are passed as
two typed lists here, the flag selecting which one is consumed. -/
def CreateDictionaryOfData (est gas : Bool) (IndoorData OutdoorData : List TItem)
    (HeatingGasData : List VItem) (HeatingDirectData : List MItem)
    (ElectricEnergyData : List VItem) : Dict :=
  let D0 : Dict := []
  let D1 := if est then insertAll D0 (IndoorData.map fun i => (i.d, Entry.indoorT i.ta)) else D0
  let D2 := if est then insertAll D1 (ElectricEnergyData.map fun i => (i.d, Entry.electricE i.v)) else D1
  let D3 := insertAll D2 (OutdoorData.map fun i => (i.d, Entry.outdoorT i.ta))
  if gas then insertAll D3 (HeatingGasData.map fun i => (i.d, Entry.energyE (ConvertGasTokWh i.v)))
  else insertAll D3 (HeatingDirectData.map fun i => (i.d, Entry.energyE (i.vmax - i.vmin)))

/-- The flat tagged observation sequence that `CreateDictionaryOfData` inserts,
in its processing order; `CreateDictionaryOfData` equals `insertAll []` of this
list (proved below). -/
def taggedObs (est gas : Bool) (IndoorData OutdoorData : List TItem)
    (HeatingGasData : List VItem) (HeatingDirectData : List MItem)
    (ElectricEnergyData : List VItem) : List (ℕ × Entry) :=
  (if est then IndoorData.map (fun i => (i.d, Entry.indoorT i.ta)) else []) ++
  (if est then ElectricEnergyData.map (fun i => (i.d, Entry.electricE i.v)) else []) ++
  OutdoorData.map (fun i => (i.d, Entry.outdoorT i.ta)) ++
  (if gas then HeatingGasData.map (fun i => (i.d, Entry.energyE (ConvertGasTokWh i.v)))
   else HeatingDirectData.map (fun i => (i.d, Entry.energyE (i.vmax - i.vmin))))

/-- The dates of a tagged observation list, in order of first occurrence: this
is the key order of the `OrderedDict` the insertions produce. -/
def firstDates (L : List (ℕ × Entry)) : List ℕ :=
  L.foldl (fun acc p => if p.1 ∈ acc then acc else acc ++ [p.1]) []

/-- The subsequence of values carried by the observations of one date, in
arrival order: this is the `ValueList` the insertions accumulate for that date. -/
def entriesOf (d : ℕ) (L : List (ℕ × Entry)) : List Entry :=
  (L.filter fun p => p.1 = d).map Prod.snd

/-- Loop state of `GetDataListsFromDictionary` (source lines 402-405): the
`Previous...` carry-forward values for the four fields. -/
structure Prev where
  indoorT : ℚ
  outdoorT : ℚ
  heatP : ℚ
  elecE : ℚ
  deriving DecidableEq

/-- The inner loop body of `GetDataListsFromDictionary` (source lines 407-415):
each value dict present updates its field's carry-forward value; an `Energy`
entry is divided by `HoursForHeatingADay` as it is stored. -/
def updEntry (p : Prev) (e : Entry) : Prev :=
  match e with
  | .energyE v => { p with heatP := v / HoursForHeatingADay }
  | .outdoorT v => { p with outdoorT := v }
  | .electricE v => { p with elecE := v }
  | .indoorT v => { p with indoorT := v }

/-- The outer loop of `GetDataListsFromDictionary` (source lines 406-419),
carrying the `Previous...` state across dates and appending the current values
to the four sample lists after each date. -/
def GetDataListsAux (p : Prev) : Dict → List ℚ × List ℚ × List ℚ × List ℚ
  | [] => ([], [], [], [])
  | kv :: rest =>
    let p2 := kv.2.foldl updEntry p
    let r := GetDataListsAux p2 rest
    (p2.indoorT :: r.1, p2.outdoorT :: r.2.1, p2.heatP :: r.2.2.1, p2.elecE :: r.2.2.2)

/-- `GetDataListsFromDictionary` (source lines 396-420): all `Previous...`
values start at `0.0`; the result is
`(IndoorTempSamples, OutdoorTempSamples, HeatingPowerSamples, ElectricEnergySamples)`. -/
def GetDataListsFromDictionary (M : Dict) : List ℚ × List ℚ × List ℚ × List ℚ :=
  GetDataListsAux ⟨0, 0, 0, 0⟩ M

/-- The spec's `aggregate`: build the date-keyed dictionary from a tagged
observation sequence and walk it into the four aligned sample lists. -/
def Aggregate (L : List (ℕ × Entry)) : List ℚ × List ℚ × List ℚ × List ℚ :=
  GetDataListsFromDictionary (insertAll [] L)

/-- The four field names of the per-day value dictionaries. -/
inductive Field where
  | indoorF
  | outdoorF
  | heatingF
  | electricF
  deriving DecidableEq

/-- The field a value dict entry carries. -/
def fieldOf : Entry → Field
  | .indoorT _ => .indoorF
  | .electricE _ => .electricF
  | .outdoorT _ => .outdoorF
  | .energyE _ => .heatingF

/-- The value `GetDataListsFromDictionary` stores for an entry: the raw value
for the three direct fields, `Energy/HoursForHeatingADay` for the heating field
(source line 409). -/
def storeVal : Entry → ℚ
  | .indoorT v => v
  | .electricE v => v
  | .outdoorT v => v
  | .energyE v => v / HoursForHeatingADay

/-- Projection of the carry-forward state onto one field. -/
def projPrev (f : Field) (p : Prev) : ℚ :=
  match f with
  | .indoorF => p.indoorT
  | .outdoorF => p.outdoorT
  | .heatingF => p.heatP
  | .electricF => p.elecE

/-- Projection of the four aligned sample lists onto one field. -/
def projLists (f : Field) (r : List ℚ × List ℚ × List ℚ × List ℚ) : List ℚ :=
  match f with
  | .indoorF => r.1
  | .outdoorF => r.2.1
  | .heatingF => r.2.2.1
  | .electricF => r.2.2.2

/-- The aligned sample list of one field, as produced by
`GetDataListsFromDictionary`. -/
def outField (f : Field) (M : Dict) : List ℚ :=
  projLists f (GetDataListsFromDictionary M)

/-- Effect of one date's value list on one field's carry-forward value: the
last entry of that field present wins, otherwise the value is unchanged. -/
def dayUpd (f : Field) (c : ℚ) (es : List Entry) : ℚ :=
  es.foldl (fun c e => if fieldOf e = f then storeVal e else c) c

/-- The per-field scan underlying `GetDataListsFromDictionary`: starting value
`c`, each date contributes `dayUpd` of its value list. -/
def fieldScanAux (f : Field) (c : ℚ) : Dict → List ℚ
  | [] => []
  | kv :: rest =>
    let c2 := dayUpd f c kv.2
    c2 :: fieldScanAux f c2 rest

/-- A parsed CSV row as `GetDataListsFromCSVFile` sees it: four cells, `none`
when the cell is blank after `strip()` (the source tests
`row[i].strip()` for truthiness before converting with `float`). -/
structure CSVRow where
  c0 : Option ℚ
  c1 : Option ℚ
  c2 : Option ℚ
  c3 : Option ℚ
  deriving DecidableEq

/-- `GetDataListsFromCSVFile` (source lines 422-441): per row, if the first two
cells are non-blank append outdoor temperature and heating power (gas-converted
when the gas flag is set, always divided by `HoursForHeatingADay`); if
estimating internal/external energy and the last two cells are non-blank append
indoor temperature and calibrated, 3-decimal-rounded electricity. Returns
`(OutdoorTempSamples, HeatingPowerSamples, IndoorTempSamples, ElectricitySamples)`. -/
def GetDataListsFromCSVFile (est gas : Bool) : List CSVRow → List ℚ × List ℚ × List ℚ × List ℚ
  | [] => ([], [], [], [])
  | row :: rest =>
    let r := GetDataListsFromCSVFile est gas rest
    let oh : List ℚ × List ℚ :=
      match row.c0, row.c1 with
      | some t, some v =>
        (t :: r.1, ((if gas then ConvertGasTokWh v else v) / HoursForHeatingADay) :: r.2.1)
      | _, _ => (r.1, r.2.1)
    let ie : List ℚ × List ℚ :=
      if est then
        match row.c2, row.c3 with
        | some t, some v => (t :: r.2.2.1, round3 (TotalUsageCorrectionFactor * v) :: r.2.2.2)
        | _, _ => (r.2.2.1, r.2.2.2)
      else (r.2.2.1, r.2.2.2)
    (oh.1, oh.2, ie.1, ie.2)

/-- Truncated dot product of two sample lists. -/
def zipSum (u v : List ℚ) : ℚ := (List.zipWith (fun a b => a * b) u v).sum

/-- Scaled covariance `N·Σuv − Σu·Σv` of two equal-length sample lists: this is
`N·(N−1)` times the sample covariance, so it has the sample covariance's sign
and the scaling cancels in the correlation coefficient. -/
def scov (u v : List ℚ) : ℚ := (u.length : ℚ) * zipSum u v - u.sum * v.sum

/-- `FitHeatingAndTemperatureData` (source lines 446-456), gain and offset.
`scipy.optimize.curve_fit` fits the model `FitEnergyVsTOutsideFunction`
(`power = temperature·Gain + Offset`, source lines 443-444) by least squares;
for a model linear in its parameters the least-squares optimum is the closed
normal-equations solution embedded here:
`gain = (N·Σxy − Σx·Σy)/(N·Σx² − (Σx)²)`, `offset = (Σy − gain·Σx)/N`. -/
def FitHeatingAndTemperatureData (x y : List ℚ) : ℚ × ℚ :=
  let gain := scov x y / scov x x
  let offset := (y.sum - gain * x.sum) / (x.length : ℚ)
  (gain, offset)

/-- The fitted prediction list `CorrPower` of `FitHeatingAndTemperatureData`
(source lines 451-454): `Power = Gain*temperature + Offset` per sample. -/
def CorrPowerList (x : List ℚ) (g o : ℚ) : List ℚ :=
  x.map fun t => g * t + o

/-- Exact characterisation of the Pearson correlation coefficient `r` of two
equal-length lists, as computed by `pylab.corrcoef(u, v)[0][1]`:
`r = scov u v / sqrt(scov u u · scov v v)`, i.e. `r` squared times the variance
product equals the covariance squared, and `r` has the covariance's sign. The
square root keeps the value itself outside `ℚ`, the relation does not. -/
def Corrcoef (u v : List ℚ) (r : ℚ) : Prop :=
  r ^ 2 * (scov u u * scov v v) = scov u v ^ 2 ∧ (0 ≤ r ↔ 0 ≤ scov u v)

/-- `HeatingLimit=(-1.0*HeatingPowerPerxxhOffset)/HeatingPowerPerxxhGain`
(source line 631), the unconditional balance-point division. -/
def HeatingLimitCalc (g o : ℚ) : ℚ := (-1 * o) / g

/-- The error taxonomy named by the specification (spec section 7). -/
inductive HError where
  | DataIntegrityError
  | UndefinedBalancePointError
  deriving DecidableEq

/-- Follows the spec's words (sections 4.2 and 7), for comparison with the
source: direct-mode daily energy is `v_max − v_min`, and a negative difference
signals `DataIntegrityError` instead of being passed through. The source has no
such check; this definition exists only to state that divergence. -/
def DirectEnergySpecModel (vmax vmin : ℚ) : Except HError ℚ :=
  if vmax - vmin < 0 then .error .DataIntegrityError else .ok (vmax - vmin)

/-- Follows the spec's words (sections 4.3 and 7), for comparison with the
source: the balance point is `-offset/gain`, and a zero gain signals
`UndefinedBalancePointError` instead of dividing. The source divides
unconditionally; this definition exists only to state that divergence. -/
def HeatingLimitSpecModel (g o : ℚ) : Except HError ℚ :=
  if g = 0 then .error .UndefinedBalancePointError else .ok ((-1 * o) / g)

/-- The per-bin energy list of `PlotEnergyDistribution` before scaling (source
lines 549-554): bins strictly below `HeatingLimit` contribute
`(gain·temp + offset) · days · HoursForHeatingADay`, the others `0.0`. -/
def ScaledEnergyVsAverageTemperature (HL g o : ℚ) : List ℚ :=
  List.zipWith
    (fun temp days => if temp < HL then (g * temp + o) * days * HoursForHeatingADay else 0)
    EnergyTemperatureList DaysPerYearAverageTemperature

/-- Python `max` over a non-empty list (the lists it is applied to in the
source always have 121 entries). -/
def listMax : List ℚ → ℚ
  | [] => 0
  | x :: xs => xs.foldl max x

/-- `EnergyScaleFactor=max(DaysPerYearAverageTemperature)/max(ScaledEnergyVsAverageTemperature)`
(source line 556). A zero maximum makes the Python float division raise
`ZeroDivisionError`; that failure is `none` here. -/
def EnergyScaleFactor (HL g o : ℚ) : Option ℚ :=
  let m := listMax (ScaledEnergyVsAverageTemperature HL g o)
  if m = 0 then none else some (listMax DaysPerYearAverageTemperature / m)

/-- `TotalEnergy=int(sum(ScaledEnergyVsAverageTemperature)/EnergyScaleFactor)`
(source line 568), the list having been scaled in place by the factor first
(source lines 559-560). `none` is the `ZeroDivisionError` of the factor. -/
def TotalEnergy (HL g o : ℚ) : Option ℤ :=
  (EnergyScaleFactor HL g o).map fun F =>
    ratTrunc ((((ScaledEnergyVsAverageTemperature HL g o).map fun e => e * F).sum) / F)

end HouseHeating

namespace HouseHeating

/-! ## Helper lemmas -/

theorem sum_map_mul (l : List ℚ) (F : ℚ) : (l.map fun e => e * F).sum = l.sum * F := by
  induction l with
  | nil => simp
  | cons a l ih => simp [ih, add_mul]

/-! ## Claim C10: gas volumes below the daily allowance convert to strictly
negative energy and feed a negative heating power downstream. -/

/-- C10: for every gas volume strictly below
`CubicMetersGasADayForWarmWaterAndCooking`, `ConvertGasTokWh` returns a strictly
negative energy without any error or clamp, and the heating power derived from
it (division by `HoursForHeatingADay`) is strictly negative as well. -/
theorem C10_gas_negative_energy (gas : ℚ)
    (h : gas < CubicMetersGasADayForWarmWaterAndCooking) :
    ConvertGasTokWh gas < 0 ∧ ConvertGasTokWh gas / HoursForHeatingADay < 0 := by
  have hneg : ConvertGasTokWh gas < 0 := by
    have h1 : gas - CubicMetersGasADayForWarmWaterAndCooking < 0 := sub_neg.mpr h
    have h2 : (0 : ℚ) < EnergyPerCubicMeterGas := by norm_num [EnergyPerCubicMeterGas]
    exact mul_neg_of_neg_of_pos h1 h2
  refine ⟨hneg, div_neg_of_neg_of_pos hneg ?_⟩
  norm_num [HoursForHeatingADay]

/-- C10 witness: the conversion at gas volume `0` (below the allowance `8/30`). -/
theorem C10_gas_negative_energy_witness :
    (0 : ℚ) < CubicMetersGasADayForWarmWaterAndCooking ∧
      ConvertGasTokWh 0 < 0 ∧ ConvertGasTokWh 0 / HoursForHeatingADay < 0 :=
  ⟨by norm_num [CubicMetersGasADayForWarmWaterAndCooking],
   C10_gas_negative_energy 0 (by norm_num [CubicMetersGasADayForWarmWaterAndCooking])⟩

/-! ## Claim C5: zero fitted gain and the balance point. -/

/-- C5 counterexample: at gain `0` the source's `HeatingLimit` computation
(line 631) performs the division anyway and yields a plain number (the
embedding's division-by-zero default `0`; the floating-point program produces
an infinity with a runtime warning), while the spec-modelled behaviour is the
distinguished `UndefinedBalancePointError`. No error path exists in the code. -/
theorem C5_zero_gain_counterexample :
    HeatingLimitCalc 0 2 = 0 ∧
      HeatingLimitSpecModel 0 2 = Except.error HError.UndefinedBalancePointError := by
  constructor
  · simp [HeatingLimitCalc]
  · simp [HeatingLimitSpecModel]

/-- C5 amended: `HeatingLimit` is the unconditional quotient `(-offset)/gain`:
for nonzero gain it satisfies the balance-point equation, and at gain `0` the
division is still performed (totalised to `0` in the embedding) — no
`UndefinedBalancePointError` or sentinel is ever produced. -/
theorem C5_zero_gain_amended :
    (∀ g o : ℚ, g ≠ 0 → HeatingLimitCalc g o * g = -o) ∧
      (∀ o : ℚ, HeatingLimitCalc 0 o = 0) := by
  constructor
  · intro g o hg
    rw [HeatingLimitCalc, div_mul_cancel₀ _ hg]
    ring
  · intro o
    simp [HeatingLimitCalc]

/-- C5 witness: the balance-point equation at the end-to-end fit `(-1/5, 2)`. -/
theorem C5_zero_gain_witness :
    ((-1/5 : ℚ) ≠ 0) ∧ HeatingLimitCalc (-1/5) 2 * (-1/5) = -2 :=
  ⟨by norm_num, C5_zero_gain_amended.1 (-1/5) 2 (by norm_num)⟩

/-! ## Claim C4: negative counter differences in direct energy mode. -/

/-- C4 counterexample: a direct-mode heating item with `v_max = 1 < v_min = 5`
is stored by `CreateDictionaryOfData` as the plain negative energy `-4` — the
claimed `DataIntegrityError` (spec-modelled on the right) is never signalled. -/
theorem C4_negative_counter_counterexample :
    CreateDictionaryOfData true false [] [] [] [⟨0, 1, 5⟩] [] =
        [(0, [Entry.energyE (-4)])] ∧
      DirectEnergySpecModel 1 5 = Except.error HError.DataIntegrityError := by
  constructor
  · simp [CreateDictionaryOfData, insertAll, insertObs]
    norm_num
  · norm_num [DirectEnergySpecModel]

/-- C4 amended: in direct energy mode the normalizer stores `v_max - v_min`
unconditionally; when the counter appears to decrease the negative difference
is passed through silently (no `DataIntegrityError`, no clamp). -/
theorem C4_negative_counter_amended (est : Bool) (d : ℕ) (vmax vmin : ℚ)
    (h : vmax < vmin) :
    CreateDictionaryOfData est false [] [] [] [⟨d, vmax, vmin⟩] [] =
        [(d, [Entry.energyE (vmax - vmin)])] ∧ vmax - vmin < 0 := by
  constructor
  · cases est <;> simp [CreateDictionaryOfData, insertAll, insertObs]
  · exact sub_neg.mpr h

/-- C4 witness: the decreasing counter `v_max = 1, v_min = 5` on date `0`. -/
theorem C4_negative_counter_witness :
    (1 : ℚ) < 5 ∧
      (CreateDictionaryOfData true false [] [] [] [⟨0, 1, 5⟩] [] =
          [(0, [Entry.energyE ((1 : ℚ) - 5)])] ∧ (1 : ℚ) - 5 < 0) :=
  ⟨by norm_num, C4_negative_counter_amended true 0 1 5 (by norm_num)⟩

end HouseHeating

namespace HouseHeating

/-! ## Fit lemmas for claims C1 and C9 -/

theorem sum_map_affine (g o : ℚ) (x : List ℚ) :
    (x.map fun t => g * t + o).sum = g * x.sum + o * (x.length : ℚ) := by
  induction x with
  | nil => simp
  | cons a x ih =>
    simp only [List.map_cons, List.sum_cons, List.length_cons, ih]
    push_cast
    ring

theorem zipSum_map_affine (g o : ℚ) : ∀ (x y : List ℚ), x.length = y.length →
    zipSum (x.map fun t => g * t + o) y = g * zipSum x y + o * y.sum := by
  intro x
  induction x with
  | nil =>
    intro y h
    cases y with
    | nil => simp [zipSum]
    | cons b y => simp at h
  | cons a x ih =>
    intro y h
    cases y with
    | nil => simp at h
    | cons b y =>
      have hy := ih y (by simpa using h)
      simp only [List.map_cons, zipSum, List.zipWith_cons_cons, List.sum_cons] at hy ⊢
      rw [hy]
      ring

theorem scov_CorrPowerList (g o : ℚ) (x y : List ℚ) (h : x.length = y.length) :
    scov (CorrPowerList x g o) y = g * scov x y := by
  simp only [scov, CorrPowerList, List.length_map, sum_map_affine,
    zipSum_map_affine g o x y h]
  rw [h]
  ring

/-! ## Claim C9: the reported correlation never distinguishes the sign of the
temperature-power relationship. -/

/-- C9: for every pair of equal-length sample lists with non-degenerate
temperatures and a nonzero fitted gain, any value `r` of the Pearson
correlation between the fitted predictions (`CorrPowerList` at the fitted gain
and offset) and the observed powers is nonnegative, hence so is the reported
3-decimal rounding. Indeed `scov(pred, y) = gain · scov(x, y) = scov(x, y)² /
scov(x, x) > 0`, so the diagnostic cannot be negative. -/
theorem C9_correlation_nonnegative (x y : List ℚ) (r : ℚ)
    (hlen : x.length = y.length) (hD : 0 < scov x x)
    (hg : (FitHeatingAndTemperatureData x y).1 ≠ 0)
    (hr : Corrcoef
      (CorrPowerList x (FitHeatingAndTemperatureData x y).1
        (FitHeatingAndTemperatureData x y).2) y r) :
    0 ≤ round3 r := by
  have hgain : (FitHeatingAndTemperatureData x y).1 = scov x y / scov x x := rfl
  have hxy : scov x y ≠ 0 := by
    intro h0
    exact hg (by rw [hgain, h0, zero_div])
  have hpos : 0 < scov
      (CorrPowerList x (FitHeatingAndTemperatureData x y).1
        (FitHeatingAndTemperatureData x y).2) y := by
    rw [scov_CorrPowerList _ _ x y hlen, hgain, div_mul_eq_mul_div]
    exact div_pos (mul_self_pos.mpr hxy) hD
  have hr0 : 0 ≤ r := hr.2.mpr hpos.le
  have h1 : (0 : ℤ) ≤ round (r * 1000) := by
    rw [round_eq]
    have h0 : (0 : ℤ) = ⌊(1/2 : ℚ)⌋ := by norm_num
    rw [h0]
    exact Int.floor_mono (by nlinarith)
  rw [round3]
  exact div_nonneg (by exact_mod_cast h1) (by norm_num)

/-- C9 witness: the end-to-end series satisfies all hypotheses with `r = 1`. -/
theorem C9_correlation_nonnegative_witness :
    (0 : ℚ) < scov [-5, 0, 5, 10] [-5, 0, 5, 10] ∧ 0 ≤ round3 1 := by
  have hD : (0 : ℚ) < scov [-5, 0, 5, 10] [-5, 0, 5, 10] := by
    norm_num [scov, zipSum, List.zipWith]
  have hlen : ([(-5 : ℚ), 0, 5, 10]).length = ([(3 : ℚ), 2, 1, 0]).length := by
    norm_num
  have hg : (FitHeatingAndTemperatureData [-5, 0, 5, 10] [3, 2, 1, 0]).1 ≠ 0 := by
    norm_num [FitHeatingAndTemperatureData, scov, zipSum, List.zipWith]
  have hr : Corrcoef
      (CorrPowerList [-5, 0, 5, 10] (FitHeatingAndTemperatureData [-5, 0, 5, 10] [3, 2, 1, 0]).1
        (FitHeatingAndTemperatureData [-5, 0, 5, 10] [3, 2, 1, 0]).2) [3, 2, 1, 0] 1 := by
    constructor
    · norm_num [FitHeatingAndTemperatureData, CorrPowerList, scov, zipSum, List.zipWith]
    · norm_num [FitHeatingAndTemperatureData, CorrPowerList, scov, zipSum, List.zipWith]
  exact ⟨hD, C9_correlation_nonnegative [-5, 0, 5, 10] [3, 2, 1, 0] 1 hlen hD hg hr⟩

/-! ## Claim C1: the end-to-end fit scenario. -/

/-- C1: on outdoor temperatures `[-5, 0, 5, 10]` and heating powers
`[3, 2, 1, 0]` the least-squares fit returns gain `-1/5` and offset `2`
exactly; every value of the Pearson correlation between the fitted predictions
and the observed powers is `1` after the source's 3-decimal rounding; and the
derived balance point `-offset/gain` equals `10`. -/
theorem C1_end_to_end_fit_exact :
    FitHeatingAndTemperatureData [-5, 0, 5, 10] [3, 2, 1, 0] = (-1/5, 2) ∧
      (∀ r : ℚ, Corrcoef (CorrPowerList [-5, 0, 5, 10] (-1/5) 2) [3, 2, 1, 0] r →
        round3 r = 1) ∧
      HeatingLimitCalc (-1/5) 2 = 10 := by
  refine ⟨?_, ?_, ?_⟩
  · norm_num [FitHeatingAndTemperatureData, scov, zipSum, List.zipWith, Prod.ext_iff]
  · intro r hr
    have hu : CorrPowerList [-5, 0, 5, 10] (-1/5 : ℚ) 2 = [3, 2, 1, 0] := by
      norm_num [CorrPowerList]
    rw [hu] at hr
    obtain ⟨h1, h2⟩ := hr
    have hs : scov [(3 : ℚ), 2, 1, 0] [3, 2, 1, 0] = 20 := by
      norm_num [scov, zipSum, List.zipWith]
    rw [hs] at h1
    have hrpos : 0 ≤ r := h2.mpr (by rw [hs]; norm_num)
    have hr2 : (r - 1) * (r + 1) = 0 := by nlinarith
    rcases mul_eq_zero.mp hr2 with h | h
    · have hr1 : r = 1 := by linarith
      rw [hr1, round3, round_eq]
      norm_num
    · exfalso
      linarith
  · rw [HeatingLimitCalc]
    norm_num

/-- C1 witness: `r = 1` satisfies the correlation characterisation for the
end-to-end scenario, and the claim's conclusion holds there. -/
theorem C1_end_to_end_fit_exact_witness :
    Corrcoef (CorrPowerList [-5, 0, 5, 10] (-1/5) 2) [3, 2, 1, 0] 1 ∧ round3 1 = 1 := by
  have hcor : Corrcoef (CorrPowerList [-5, 0, 5, 10] (-1/5) 2) [3, 2, 1, 0] 1 := by
    constructor
    · norm_num [CorrPowerList, scov, zipSum, List.zipWith]
    · norm_num [CorrPowerList, scov, zipSum, List.zipWith]
  exact ⟨hcor, C1_end_to_end_fit_exact.2.1 1 hcor⟩

end HouseHeating

namespace HouseHeating

/-! ## Scan lemmas for the aligned-series walk (claims C7 and C8) -/

theorem projPrev_updEntry (f : Field) (p : Prev) (e : Entry) :
    projPrev f (updEntry p e) = if fieldOf e = f then storeVal e else projPrev f p := by
  cases e <;> cases f <;> simp [updEntry, projPrev, fieldOf, storeVal]

theorem projPrev_foldl (f : Field) : ∀ (es : List Entry) (p : Prev),
    projPrev f (es.foldl updEntry p) = dayUpd f (projPrev f p) es := by
  intro es
  induction es with
  | nil => intro p; simp [dayUpd]
  | cons e es ih =>
    intro p
    simp only [List.foldl_cons, dayUpd] at ih ⊢
    rw [ih, projPrev_updEntry]

theorem projLists_GetDataListsAux (f : Field) : ∀ (M : Dict) (p : Prev),
    projLists f (GetDataListsAux p M) = fieldScanAux f (projPrev f p) M := by
  intro M
  induction M with
  | nil => intro p; cases f <;> simp [GetDataListsAux, fieldScanAux, projLists]
  | cons kv M ih =>
    intro p
    have key : projLists f (GetDataListsAux p (kv :: M)) =
        projPrev f (kv.2.foldl updEntry p) ::
          projLists f (GetDataListsAux (kv.2.foldl updEntry p) M) := by
      cases f <;> rfl
    rw [key, ih, projPrev_foldl f kv.2 p]
    rfl

theorem outField_eq_scan (f : Field) (M : Dict) :
    outField f M = fieldScanAux f 0 M := by
  have h0 : projPrev f (⟨0, 0, 0, 0⟩ : Prev) = 0 := by cases f <;> rfl
  rw [outField, GetDataListsFromDictionary, projLists_GetDataListsAux, h0]

theorem dayUpd_of_no_field (f : Field) : ∀ (es : List Entry) (c : ℚ),
    (∀ e ∈ es, fieldOf e ≠ f) → dayUpd f c es = c := by
  intro es
  induction es with
  | nil => intro c _; simp [dayUpd]
  | cons e es ih =>
    intro c h
    simp only [dayUpd, List.foldl_cons, if_neg (h e (List.mem_cons_self e es))]
    exact ih c fun e he => h e (List.mem_cons_of_mem _ he)

theorem fieldScanAux_get_succ (f : Field) : ∀ (M : Dict) (c : ℚ) (i : ℕ)
    (day : ℕ × List Entry), M.get? (i + 1) = some day →
    (∀ e ∈ day.2, fieldOf e ≠ f) →
    (fieldScanAux f c M).get? (i + 1) = (fieldScanAux f c M).get? i := by
  intro M
  induction M with
  | nil => intro c i day h _; simp at h
  | cons kv M ih =>
    intro c i day h hday
    cases i with
    | zero =>
      cases M with
      | nil => simp at h
      | cons kv2 M2 =>
        simp only [List.get?_cons_succ, List.get?_cons_zero, Option.some.injEq] at h
        subst h
        simp only [fieldScanAux, List.get?_cons_succ, List.get?_cons_zero]
        rw [dayUpd_of_no_field f kv2.2 _ hday]
    | succ j =>
      simp only [List.get?_cons_succ] at h ⊢
      exact ih (dayUpd f c kv.2) j day h hday

theorem fieldScanAux_get_zero_of_unseen (f : Field) : ∀ (M : Dict) (c : ℚ) (i : ℕ),
    i < M.length → (∀ day ∈ M.take (i + 1), ∀ e ∈ day.2, fieldOf e ≠ f) →
    (fieldScanAux f c M).get? i = some c := by
  intro M
  induction M with
  | nil => intro c i h _; simp at h
  | cons kv M ih =>
    intro c i hi h
    have hkv : dayUpd f c kv.2 = c :=
      dayUpd_of_no_field f kv.2 c (h kv (by simp [List.take]))
    cases i with
    | zero => simp [fieldScanAux, hkv]
    | succ j =>
      simp only [fieldScanAux, List.get?_cons_succ, hkv]
      refine ih c j (by simpa using hi) ?_
      intro day hday
      exact h day (by simp [List.take, hday])

/-! ## Claim C7: forward fill of missing fields. -/

/-- C7: in the aligned series built by `GetDataListsFromDictionary`, (a) a day
whose value list carries no entry of a field leaves that field's aligned value
equal to the previous day's value (so with the field present on days 1, 2 and 4
but missing on day 3, day 3's value equals day 2's), and (b) a field with no
entry on any day up to position `i` is `0` there. -/
theorem C7_forward_fill :
    (∀ (M : Dict) (f : Field) (i : ℕ) (day : ℕ × List Entry),
      M.get? (i + 1) = some day → (∀ e ∈ day.2, fieldOf e ≠ f) →
      (outField f M).get? (i + 1) = (outField f M).get? i) ∧
    (∀ (M : Dict) (f : Field) (i : ℕ), i < M.length →
      (∀ day ∈ M.take (i + 1), ∀ e ∈ day.2, fieldOf e ≠ f) →
      (outField f M).get? i = some 0) := by
  constructor
  · intro M f i day h hday
    simp only [outField_eq_scan]
    exact fieldScanAux_get_succ f M 0 i day h hday
  · intro M f i hi h
    rw [outField_eq_scan]
    exact fieldScanAux_get_zero_of_unseen f M 0 i hi h

/-- C7 witness: outdoor temperature present on days 1, 2 and 4 (dates 1, 2, 4)
and missing on day 3: the aligned value at position 2 equals the one at
position 1, and the never-seen heating field is `0` at position 1. -/
theorem C7_forward_fill_witness :
    ((outField Field.outdoorF
        [(1, [Entry.outdoorT 10]), (2, [Entry.outdoorT 12]), (3, []), (4, [Entry.outdoorT 15])]).get? 2 =
      (outField Field.outdoorF
        [(1, [Entry.outdoorT 10]), (2, [Entry.outdoorT 12]), (3, []), (4, [Entry.outdoorT 15])]).get? 1) ∧
    (outField Field.heatingF
        [(1, [Entry.outdoorT 10]), (2, [Entry.outdoorT 12]), (3, []), (4, [Entry.outdoorT 15])]).get? 1 =
      some 0 := by
  constructor
  · exact C7_forward_fill.1
      [(1, [Entry.outdoorT 10]), (2, [Entry.outdoorT 12]), (3, []), (4, [Entry.outdoorT 15])]
      Field.outdoorF 1 (3, []) (by simp) (by simp)
  · exact C7_forward_fill.2
      [(1, [Entry.outdoorT 10]), (2, [Entry.outdoorT 12]), (3, []), (4, [Entry.outdoorT 15])]
      Field.heatingF 1 (by simp) (by simp [fieldOf])

end HouseHeating

namespace HouseHeating

/-! ## Claim C8: parallel lengths of the aligned series. -/

theorem GetDataListsAux_lengths : ∀ (M : Dict) (p : Prev),
    (GetDataListsAux p M).1.length = M.length ∧
      (GetDataListsAux p M).2.1.length = M.length ∧
      (GetDataListsAux p M).2.2.1.length = M.length ∧
      (GetDataListsAux p M).2.2.2.length = M.length := by
  intro M
  induction M with
  | nil => intro p; simp [GetDataListsAux]
  | cons kv M ih =>
    intro p
    have h := ih (kv.2.foldl updEntry p)
    simp only [GetDataListsAux, List.length_cons]
    exact ⟨by rw [h.1], by rw [h.2.1], by rw [h.2.2.1], by rw [h.2.2.2]⟩

/-- C8 counterexample: on the CSV path a row whose outdoor/heating cells are
present but whose indoor/electricity cells are blank makes the four sequences
unequal in length (outdoor has one entry, indoor none), so the claimed
four-way alignment invariant fails on the CSV path. -/
theorem C8_aligned_lengths_counterexample :
    (GetDataListsFromCSVFile true false [⟨some 5, some 2, none, none⟩]).1.length ≠
      (GetDataListsFromCSVFile true false [⟨some 5, some 2, none, none⟩]).2.2.1.length := by
  simp [GetDataListsFromCSVFile]

/-- C8 amended: on the dictionary path all four sequences always have equal
length (one entry per dictionary date, appended together, so index `i` refers
to the same date in all four); on the CSV path only the pairwise invariants
hold — outdoor temperature and heating power have equal length, and indoor
temperature and electricity have equal length — because the two pairs are
appended under independent blank-cell tests. -/
theorem C8_aligned_lengths_amended :
    (∀ M : Dict,
      (GetDataListsFromDictionary M).1.length = M.length ∧
        (GetDataListsFromDictionary M).2.1.length = M.length ∧
        (GetDataListsFromDictionary M).2.2.1.length = M.length ∧
        (GetDataListsFromDictionary M).2.2.2.length = M.length) ∧
    (∀ (est gas : Bool) (rows : List CSVRow),
      (GetDataListsFromCSVFile est gas rows).1.length =
          (GetDataListsFromCSVFile est gas rows).2.1.length ∧
        (GetDataListsFromCSVFile est gas rows).2.2.1.length =
          (GetDataListsFromCSVFile est gas rows).2.2.2.length) := by
  constructor
  · intro M
    exact GetDataListsAux_lengths M ⟨0, 0, 0, 0⟩
  · intro est gas rows
    induction rows with
    | nil => simp [GetDataListsFromCSVFile]
    | cons row rest ih =>
      obtain ⟨c0, c1, c2, c3⟩ := row
      cases c0 <;> cases c1 <;> cases est <;> cases c2 <;> cases c3 <;>
        simp_all [GetDataListsFromCSVFile]

end HouseHeating

namespace HouseHeating

/-! ## Canonical form of the ordered dictionary (claim C3) -/

theorem insertAll_append_single (D : Dict) (L : List (ℕ × Entry)) (x : ℕ × Entry) :
    insertAll D (L ++ [x]) = insertObs (insertAll D L) x.1 x.2 := by
  simp [insertAll, List.foldl_append]

theorem firstDates_append_single (L : List (ℕ × Entry)) (x : ℕ × Entry) :
    firstDates (L ++ [x]) =
      if x.1 ∈ firstDates L then firstDates L else firstDates L ++ [x.1] := by
  simp [firstDates, List.foldl_append]

theorem entriesOf_append_single (d : ℕ) (L : List (ℕ × Entry)) (x : ℕ × Entry) :
    entriesOf d (L ++ [x]) = entriesOf d L ++ (if x.1 = d then [x.2] else []) := by
  simp only [entriesOf, List.filter_append, List.map_append]
  congr 1
  by_cases h : x.1 = d <;> simp [List.filter, h]

theorem mem_firstDates_foldl : ∀ (L : List (ℕ × Entry)) (a : List ℕ) (x : ℕ),
    (x ∈ L.foldl (fun acc p => if p.1 ∈ acc then acc else acc ++ [p.1]) a) ↔
      x ∈ a ∨ x ∈ L.map Prod.fst := by
  intro L
  induction L with
  | nil => simp
  | cons p L ih =>
    intro a x
    simp only [List.foldl_cons, List.map_cons, List.mem_cons]
    rw [ih]
    by_cases h : p.1 ∈ a
    · rw [if_pos h]
      constructor
      · rintro (hx | hx)
        · exact Or.inl hx
        · exact Or.inr (Or.inr hx)
      · rintro (hx | hx | hx)
        · exact Or.inl hx
        · exact Or.inl (by rw [hx]; exact h)
        · exact Or.inr hx
    · rw [if_neg h]
      simp only [List.mem_append, List.mem_singleton]
      tauto

theorem mem_firstDates (L : List (ℕ × Entry)) (x : ℕ) :
    x ∈ firstDates L ↔ x ∈ L.map Prod.fst := by
  rw [firstDates, mem_firstDates_foldl]
  simp

theorem entriesOf_eq_nil (d : ℕ) (L : List (ℕ × Entry)) (h : d ∉ firstDates L) :
    entriesOf d L = [] := by
  rw [mem_firstDates] at h
  rw [entriesOf]
  have hf : L.filter (fun p => p.1 = d) = [] := by
    rw [List.filter_eq_nil_iff]
    intro p hp
    simp only [decide_eq_true_eq]
    intro hpd
    exact h (hpd ▸ List.mem_map_of_mem Prod.fst hp)
  rw [hf]
  rfl

theorem insertAll_canon : ∀ L : List (ℕ × Entry),
    insertAll [] L = (firstDates L).map fun d => (d, entriesOf d L) := by
  intro L
  induction L using List.reverseRecOn with
  | nil => rfl
  | append_singleton L x ih =>
    have hkeys : (((firstDates L).map fun d => (d, entriesOf d L)).map Prod.fst) =
        firstDates L := by
      rw [List.map_map]
      exact List.map_id _
    rw [insertAll_append_single, ih, firstDates_append_single]
    by_cases h : x.1 ∈ firstDates L
    · rw [if_pos h, insertObs, if_pos (by rw [hkeys]; exact h), List.map_map]
      apply List.map_congr_left
      intro d hd
      simp only [Function.comp_apply]
      rw [entriesOf_append_single]
      by_cases hdx : d = x.1
      · rw [if_pos hdx, if_pos (by rw [hdx])]
      · rw [if_neg hdx, if_neg (fun hh => hdx hh.symm), List.append_nil]
    · rw [if_neg h, insertObs, if_neg (by rw [hkeys]; exact h), List.map_append]
      congr 1
      · apply List.map_congr_left
        intro d hd
        have hdx : x.1 ≠ d := by
          intro hh
          rw [hh] at h
          exact h hd
        rw [entriesOf_append_single, if_neg hdx, List.append_nil]
      · simp only [List.map_cons, List.map_nil]
        rw [entriesOf_append_single, entriesOf_eq_nil x.1 L h, if_pos rfl,
          List.nil_append]

theorem CreateDictionaryOfData_eq_insertAll (est gas : Bool)
    (ind out : List TItem) (hgas : List VItem) (hdir : List MItem)
    (el : List VItem) :
    CreateDictionaryOfData est gas ind out hgas hdir el =
      insertAll [] (taggedObs est gas ind out hgas hdir el) := by
  cases est <;> cases gas <;>
    simp [CreateDictionaryOfData, taggedObs, insertAll, List.foldl_append]

/-! ## Claim C3: order sensitivity of the aggregation. -/

/-- C3 counterexample: swapping two dated outdoor observations (an explicit
permutation of the presented collection) changes the aligned output series:
the `OrderedDict` keeps dates in first-arrival order, so the output sequences
come out in a different order. -/
theorem C3_aggregation_order_counterexample :
    List.Perm [(⟨1, 10⟩ : TItem), ⟨2, 20⟩] [⟨2, 20⟩, ⟨1, 10⟩] ∧
      GetDataListsFromDictionary
          (CreateDictionaryOfData true false [] [⟨1, 10⟩, ⟨2, 20⟩] [] [] []) ≠
        GetDataListsFromDictionary
          (CreateDictionaryOfData true false [] [⟨2, 20⟩, ⟨1, 10⟩] [] [] []) := by
  constructor
  · exact List.Perm.swap _ _ _
  · norm_num [CreateDictionaryOfData, insertAll, insertObs,
      GetDataListsFromDictionary, GetDataListsAux, updEntry]

/-- C3 amended: the aggregation is not invariant under arbitrary permutation
of the observations (see the counterexample); what holds is (a) the
dictionary-building step processes the four sources as one flat tagged
sequence, and (b) the aligned output is unchanged by exactly those
re-presentations that preserve the first-occurrence order of the dates and the
relative order of the observations sharing a date — the result is determined
by `firstDates` and the per-date observation subsequences `entriesOf`. -/
theorem C3_aggregation_order_invariance_amended :
    (∀ (est gas : Bool) (ind out : List TItem) (hgas : List VItem)
        (hdir : List MItem) (el : List VItem),
      CreateDictionaryOfData est gas ind out hgas hdir el =
        insertAll [] (taggedObs est gas ind out hgas hdir el)) ∧
    (∀ L Lp : List (ℕ × Entry), firstDates L = firstDates Lp →
      (∀ d ∈ firstDates L, entriesOf d L = entriesOf d Lp) →
      Aggregate L = Aggregate Lp) := by
  constructor
  · exact CreateDictionaryOfData_eq_insertAll
  · intro L Lp h1 h2
    unfold Aggregate
    rw [insertAll_canon, insertAll_canon, h1]
    congr 1
    apply List.map_congr_left
    intro d hd
    rw [h2 d (by rw [h1]; exact hd)]

/-- C3 witness: two genuinely different presentations of the same observations
(the second moves a later same-date observation forward) with the same
first-occurrence date order and per-date subsequences produce the same
aligned series. -/
theorem C3_aggregation_order_witness :
    (firstDates [(1, Entry.outdoorT 10), (2, Entry.outdoorT 20), (1, Entry.outdoorT 11)] =
      firstDates [(1, Entry.outdoorT 10), (1, Entry.outdoorT 11), (2, Entry.outdoorT 20)]) ∧
      Aggregate [(1, Entry.outdoorT 10), (2, Entry.outdoorT 20), (1, Entry.outdoorT 11)] =
        Aggregate [(1, Entry.outdoorT 10), (1, Entry.outdoorT 11), (2, Entry.outdoorT 20)] := by
  have h1 : firstDates [(1, Entry.outdoorT 10), (2, Entry.outdoorT 20), (1, Entry.outdoorT 11)] =
      firstDates [(1, Entry.outdoorT 10), (1, Entry.outdoorT 11), (2, Entry.outdoorT 20)] := by
    norm_num [firstDates, List.foldl]
  have hfd : firstDates [(1, Entry.outdoorT 10), (2, Entry.outdoorT 20), (1, Entry.outdoorT 11)] =
      [1, 2] := by
    norm_num [firstDates, List.foldl]
  have h2 : ∀ d ∈ firstDates [(1, Entry.outdoorT 10), (2, Entry.outdoorT 20), (1, Entry.outdoorT 11)],
      entriesOf d [(1, Entry.outdoorT 10), (2, Entry.outdoorT 20), (1, Entry.outdoorT 11)] =
        entriesOf d [(1, Entry.outdoorT 10), (1, Entry.outdoorT 11), (2, Entry.outdoorT 20)] := by
    rw [hfd]
    intro d hd
    rcases List.mem_cons.mp hd with rfl | hd2
    · norm_num [entriesOf, List.filter]
    · rcases List.mem_cons.mp hd2 with rfl | h3
      · norm_num [entriesOf, List.filter]
      · exact absurd h3 (List.not_mem_nil d)
  exact ⟨h1, C3_aggregation_order_invariance_amended.2 _ _ h1 h2⟩

end HouseHeating

namespace HouseHeating

/-! ## Fold lemmas for the degree-day lookup (claim C2) -/

theorem dstep_fold_above (T : ℚ) : ∀ (l : List (ℚ × ℚ)) (s : DState),
    (∀ p ∈ l, T < p.1) → s.F = true → l.foldl (dstep T) s = s := by
  intro l
  induction l with
  | nil => intro s _ _; rfl
  | cons p l ih =>
    intro s h hF
    have hp := h p (List.mem_cons_self p l)
    have hstep : dstep T s p = s := by
      rw [dstep, if_neg (by exact not_lt.mpr hp.le), if_neg (by exact ne_of_gt hp),
        if_pos hF]
    rw [List.foldl_cons, hstep]
    exact ih s (fun q hq => h q (List.mem_cons_of_mem _ hq)) hF

theorem dstep_fold_above_start (T : ℚ) (p : ℚ × ℚ) (l : List (ℚ × ℚ))
    (hp : T < p.1) (h : ∀ q ∈ l, T < q.1) :
    (p :: l).foldl (dstep T) ⟨0, 0, 0, false⟩ = ⟨0, 0 + p.2, p.1, true⟩ := by
  have hstep : dstep T (⟨0, 0, 0, false⟩ : DState) p = ⟨0, 0 + p.2, p.1, true⟩ := by
    rw [dstep, if_neg (by exact not_lt.mpr hp.le), if_neg (by exact ne_of_gt hp),
      if_neg (by simp)]
  rw [List.foldl_cons, hstep]
  exact dstep_fold_above T l _ h rfl

theorem dstep_fold_below (T : ℚ) : ∀ (l : List (ℚ × ℚ)) (s : DState),
    (∀ p ∈ l, p.1 < T) →
    l.foldl (dstep T) s = ⟨s.L + (l.map Prod.snd).sum, s.H, s.HT, s.F⟩ := by
  intro l
  induction l with
  | nil => intro s _; simp
  | cons p l ih =>
    intro s h
    have hp := h p (List.mem_cons_self p l)
    have hstep : dstep T s p = ⟨s.L + p.2, s.H, s.HT, s.F⟩ := by
      rw [dstep, if_pos hp]
    rw [List.foldl_cons, hstep,
      ih _ (fun q hq => h q (List.mem_cons_of_mem _ hq))]
    simp [add_assoc]

set_option maxRecDepth 4000 in
set_option maxHeartbeats 4000000 in
theorem ETL_dropLast_bounds :
    ∀ t ∈ EnergyTemperatureList.dropLast, (-30 : ℚ) ≤ t ∧ t < 30 := by
  norm_num [EnergyTemperatureList, List.dropLast]

theorem ETL_split :
    EnergyTemperatureList = EnergyTemperatureList.dropLast ++ [30] := rfl

theorem ETL_bounds : ∀ t ∈ EnergyTemperatureList, (-30 : ℚ) ≤ t ∧ t ≤ 30 := by
  intro t ht
  rw [ETL_split, List.mem_append, List.mem_singleton] at ht
  rcases ht with ht | rfl
  · have := ETL_dropLast_bounds t ht
    exact ⟨this.1, this.2.le⟩
  · norm_num

theorem zipTD_bounds : ∀ p ∈ zipTD, (-30 : ℚ) ≤ p.1 ∧ p.1 ≤ 30 := by
  intro p hp
  exact ETL_bounds p.1 (List.of_mem_zip hp).1

theorem zipTD_dropLast_lt : ∀ p ∈ zipTD.dropLast, p.1 < 30 := by
  intro p hp
  have hz : zipTD.dropLast =
      List.zip EnergyTemperatureList.dropLast
        DaysPerYearAverageTemperature.dropLast := rfl
  rw [hz] at hp
  exact (ETL_dropLast_bounds p.1 (List.of_mem_zip hp).1).2

theorem zipTD_snd_sum :
    (zipTD.map Prod.snd).sum = DaysPerYearAverageTemperature.sum := by
  rw [zipTD, List.map_snd_zip]
  rfl

theorem zipTD_dropLast_snd_sum :
    ((zipTD.dropLast.map Prod.snd).sum) = DaysPerYearAverageTemperature.sum := by
  have h1 : zipTD.dropLast.map Prod.snd = DaysPerYearAverageTemperature.dropLast := rfl
  have h2 : DaysPerYearAverageTemperature =
      DaysPerYearAverageTemperature.dropLast ++ [0] := rfl
  rw [h1]
  conv_rhs => rw [h2]
  rw [List.sum_append]
  simp

/-- Value of the lookup for a query strictly above every bin: the loop takes
only the accumulation branch, `HighValueFound` stays false, and the final
interpolation extrapolates from the initial `HighValueTemperature = 0.0`. -/
theorem Calculate_above (T : ℚ) (hT : 30 < T) :
    CalculateDaysPerYearBelowTemperature T =
      -2 * T * DaysPerYearAverageTemperature.sum := by
  have hall : ∀ p ∈ zipTD, p.1 < T := by
    intro p hp
    have := (zipTD_bounds p hp).2
    linarith
  simp only [CalculateDaysPerYearBelowTemperature,
    dstep_fold_below T zipTD _ hall, zipTD_snd_sum]
  ring

/-! ## Claim C2: boundary behaviour of the degree-day lookup. -/

/-- C2 counterexample: a query at `+100`, above the table highest bin, does
not return the table maximum cumulative value (the total
`DaysPerYearAverageTemperature.sum`): it returns the large negative number
`-200` times that total. The loop only ever sets `HighValue` at a bin at or
above the query, so for a query above every bin `HighValueFound` stays false,
`HighValueTemperature` keeps its initial `0.0`, and the final interpolation
extrapolates to `-2 · T · total`. -/
theorem C2_degree_day_boundary_counterexample :
    CalculateDaysPerYearBelowTemperature 100 ≠ DaysPerYearAverageTemperature.sum ∧
      CalculateDaysPerYearBelowTemperature 100 < 0 := by
  have htotal : DaysPerYearAverageTemperature.sum = 32321971/100000 := by
    norm_num [DaysPerYearAverageTemperature]
  have hcalc := Calculate_above 100 (by norm_num)
  rw [hcalc, htotal]
  norm_num

/-- C2 amended: below the table lowest bin the lookup returns `0` (this rests
on the first bin day count being `0`, not on a clamp); a query at the highest
bin returns the table maximum cumulative value; but a query strictly above
the highest bin returns `-2 · T · total` — a negative extrapolation, not the
maximum cumulative value the claim states. -/
theorem C2_degree_day_boundary_amended :
    (∀ T : ℚ, T < -30 → CalculateDaysPerYearBelowTemperature T = 0) ∧
      CalculateDaysPerYearBelowTemperature 30 = DaysPerYearAverageTemperature.sum ∧
      (∀ T : ℚ, 30 < T →
        CalculateDaysPerYearBelowTemperature T =
          -2 * T * DaysPerYearAverageTemperature.sum) := by
  refine ⟨?_, ?_, fun T hT => Calculate_above T hT⟩
  · intro T hT
    have hz : zipTD = ((-30 : ℚ), (0 : ℚ)) :: zipTD.tail := rfl
    have hall : ∀ q ∈ zipTD.tail, T < q.1 := by
      intro q hq
      have := (zipTD_bounds q (List.mem_of_mem_tail hq)).1
      linarith
    have h1 : T < (((-30 : ℚ), (0 : ℚ)) : ℚ × ℚ).1 := by simpa using hT
    simp only [CalculateDaysPerYearBelowTemperature]
    rw [hz, dstep_fold_above_start T _ _ h1 hall]
    norm_num
  · have hsplit : zipTD = zipTD.dropLast ++ [((30 : ℚ), (0 : ℚ))] := rfl
    have hfold : zipTD.foldl (dstep 30) ⟨0, 0, 0, false⟩ =
        ⟨(zipTD.dropLast.map Prod.snd).sum + 0,
          (zipTD.dropLast.map Prod.snd).sum + 0, 30, true⟩ := by
      conv_lhs => rw [hsplit]
      rw [List.foldl_append,
        dstep_fold_below 30 zipTD.dropLast _ zipTD_dropLast_lt]
      rw [List.foldl_cons, List.foldl_nil, dstep,
        if_neg (by norm_num), if_pos (by norm_num)]
      norm_num
    simp only [CalculateDaysPerYearBelowTemperature, hfold,
      zipTD_dropLast_snd_sum]
    norm_num

/-- C2 witness: the amended boundary behaviour at the claim probe points
`-100` and `+100`. -/
theorem C2_degree_day_boundary_witness :
    CalculateDaysPerYearBelowTemperature (-100) = 0 ∧
      CalculateDaysPerYearBelowTemperature 100 =
        -2 * 100 * DaysPerYearAverageTemperature.sum :=
  ⟨C2_degree_day_boundary_amended.1 (-100) (by norm_num),
   C2_degree_day_boundary_amended.2.2 100 (by norm_num)⟩

end HouseHeating

namespace HouseHeating

/-! ## List lemmas for the annual energy projection (claim C6) -/

theorem zipWith_congr_mem {f g : ℚ → ℚ → ℚ} : ∀ (l₁ l₂ : List ℚ),
    (∀ a ∈ l₁, ∀ b, f a b = g a b) →
    List.zipWith f l₁ l₂ = List.zipWith g l₁ l₂ := by
  intro l₁
  induction l₁ with
  | nil => intro l₂ _; simp
  | cons a l₁ ih =>
    intro l₂ h
    cases l₂ with
    | nil => simp
    | cons b l₂ =>
      simp only [List.zipWith_cons_cons]
      rw [h a (List.mem_cons_self a l₁) b,
        ih l₂ (fun x hx b2 => h x (List.mem_cons_of_mem _ hx) b2)]

theorem zipWith_zero_sum : ∀ (l₁ l₂ : List ℚ),
    (List.zipWith (fun _ _ => (0 : ℚ)) l₁ l₂).sum = 0 := by
  intro l₁
  induction l₁ with
  | nil => intro l₂; simp
  | cons a l₁ ih =>
    intro l₂
    cases l₂ with
    | nil => simp
    | cons b l₂ => simp [ih l₂]

theorem le_foldl_max : ∀ (l : List ℚ) (c : ℚ), c ≤ l.foldl max c := by
  intro l
  induction l with
  | nil => intro c; exact le_refl c
  | cons a l ih =>
    intro c
    exact le_trans (le_max_left c a) (ih (max c a))

theorem mem_le_foldl_max : ∀ (l : List ℚ) (c x : ℚ), x ∈ l → x ≤ l.foldl max c := by
  intro l
  induction l with
  | nil => intro c x hx; exact absurd hx (List.not_mem_nil x)
  | cons a l ih =>
    intro c x hx
    rcases List.mem_cons.mp hx with rfl | hx2
    · exact le_trans (le_max_right c x) (le_foldl_max l (max c x))
    · exact ih (max c a) x hx2

theorem mem_le_listMax (l : List ℚ) (x : ℚ) (hx : x ∈ l) : x ≤ listMax l := by
  cases l with
  | nil => exact absurd hx (List.not_mem_nil x)
  | cons a l =>
    rcases List.mem_cons.mp hx with rfl | hx2
    · exact le_foldl_max l x
    · exact mem_le_foldl_max l a x hx2

theorem foldl_max_zipWith_zero : ∀ (l₁ l₂ : List ℚ),
    (List.zipWith (fun _ _ => (0 : ℚ)) l₁ l₂).foldl max 0 = 0 := by
  intro l₁
  induction l₁ with
  | nil => intro l₂; rfl
  | cons a l₁ ih =>
    intro l₂
    cases l₂ with
    | nil => rfl
    | cons b l₂ =>
      simp only [List.zipWith_cons_cons, List.foldl_cons, max_self]
      exact ih l₂

theorem listMax_zipWith_zero : ∀ (l₁ l₂ : List ℚ),
    listMax (List.zipWith (fun _ _ => (0 : ℚ)) l₁ l₂) = 0 := by
  intro l₁ l₂
  cases l₁ with
  | nil => rfl
  | cons a l₁ =>
    cases l₂ with
    | nil => rfl
    | cons b l₂ =>
      simp only [List.zipWith_cons_cons, listMax]
      exact foldl_max_zipWith_zero l₁ l₂

theorem zipWith_get? (f : ℚ → ℚ → ℚ) : ∀ (n : ℕ) (l₁ l₂ : List ℚ) (a b : ℚ),
    l₁.get? n = some a → l₂.get? n = some b →
    (List.zipWith f l₁ l₂).get? n = some (f a b) := by
  intro n
  induction n with
  | zero =>
    intro l₁ l₂ a b h₁ h₂
    cases l₁ with
    | nil => simp at h₁
    | cons x l₁ =>
      cases l₂ with
      | nil => simp at h₂
      | cons y l₂ =>
        simp only [List.get?_cons_zero, Option.some.injEq] at h₁ h₂
        simp [List.zipWith_cons_cons, h₁, h₂]
  | succ n ih =>
    intro l₁ l₂ a b h₁ h₂
    cases l₁ with
    | nil => simp at h₁
    | cons x l₁ =>
      cases l₂ with
      | nil => simp at h₂
      | cons y l₂ =>
        simp only [List.get?_cons_succ] at h₁ h₂
        simp only [List.zipWith_cons_cons, List.get?_cons_succ]
        exact ih l₁ l₂ a b h₁ h₂

/-- For a balance point at or below every bin no bin is strictly below it, so
each per-bin term of `PlotEnergyDistribution` is the `0.0` of the else branch. -/
theorem SEL_below_all (HL g o : ℚ) (h : HL ≤ -30) :
    ScaledEnergyVsAverageTemperature HL g o =
      List.zipWith (fun _ _ => (0 : ℚ)) EnergyTemperatureList
        DaysPerYearAverageTemperature := by
  apply zipWith_congr_mem
  intro t ht b
  rw [if_neg (not_lt.mpr (le_trans h (ETL_bounds t ht).1))]

/-- With a balance point at or below every bin the per-bin sum is `0`, and the
scale-factor division of `PlotEnergyDistribution` fails (`ZeroDivisionError`):
`max(ScaledEnergyVsAverageTemperature)` is `0`. -/
theorem TotalEnergy_below_all (HL g o : ℚ) (h : HL ≤ -30) :
    (ScaledEnergyVsAverageTemperature HL g o).sum = 0 ∧ TotalEnergy HL g o = none := by
  have hS := SEL_below_all HL g o h
  constructor
  · rw [hS]
    exact zipWith_zero_sum _ _
  · simp only [TotalEnergy, EnergyScaleFactor, hS, listMax_zipWith_zero]
    simp

/-! ## Claim C6: the annual energy projection. -/

/-- C6 counterexample: with a balance point below all table bins (here `-31`)
the projected annual energy is not `0`: the program fails before producing it,
dividing by `max(ScaledEnergyVsAverageTemperature) = 0.0` when it normalizes
the plot scale (a `ZeroDivisionError`, the `none` of the embedding). -/
theorem C6_annual_energy_projection_counterexample :
    TotalEnergy (-31) (-1/5) 2 ≠ some 0 := by
  rw [(TotalEnergy_below_all (-31) (-1/5) 2 (by norm_num)).2]
  simp

/-- C6 amended: (i) whenever the scale maximum is nonzero, the projected
annual energy is exactly the truncated sum of the per-bin terms of
`ScaledEnergyVsAverageTemperature` — fitted power at the bin times the bin
days/year times `HoursForHeatingADay` for exactly the bins strictly below the
balance point, `0` for the others (the in-place scaling cancels); (ii) with a
balance point above all bins every bin contributes its power term (no else
branch is taken); (iii) with a balance point below all bins every term is `0`
and the sum is `0`, but the program raises `ZeroDivisionError` computing the
scale factor instead of reporting `0`. -/
theorem C6_annual_energy_projection_amended :
    (∀ HL g o : ℚ, listMax (ScaledEnergyVsAverageTemperature HL g o) ≠ 0 →
      TotalEnergy HL g o =
        some (ratTrunc ((ScaledEnergyVsAverageTemperature HL g o).sum))) ∧
    (∀ HL g o : ℚ, 30 < HL →
      ScaledEnergyVsAverageTemperature HL g o =
        List.zipWith (fun temp days => (g * temp + o) * days * HoursForHeatingADay)
          EnergyTemperatureList DaysPerYearAverageTemperature) ∧
    (∀ HL g o : ℚ, HL ≤ -30 →
      (ScaledEnergyVsAverageTemperature HL g o).sum = 0 ∧
        TotalEnergy HL g o = none) := by
  refine ⟨?_, ?_, fun HL g o h => TotalEnergy_below_all HL g o h⟩
  · intro HL g o hm
    have hgetD : DaysPerYearAverageTemperature.get? 60 = some (14023/4000) := rfl
    have hmaxD : listMax DaysPerYearAverageTemperature ≠ 0 := by
      have hle := mem_le_listMax _ _ (List.get?_mem hgetD)
      intro h0
      rw [h0] at hle
      norm_num at hle
    have hF : listMax DaysPerYearAverageTemperature /
        listMax (ScaledEnergyVsAverageTemperature HL g o) ≠ 0 :=
      div_ne_zero hmaxD hm
    simp only [TotalEnergy, EnergyScaleFactor]
    rw [if_neg hm, Option.map_some', sum_map_mul,
      mul_div_cancel_right₀ _ hF]
  · intro HL g o h
    apply zipWith_congr_mem
    intro t ht b
    rw [if_pos (lt_of_le_of_lt (ETL_bounds t ht).2 h)]

/-- C6 witness: at the fitted line `gain = -1/5, offset = 2` the projection
with balance point `50` (above all bins) is the truncated per-bin sum, and
with balance point `-31` (below all bins) the sum is `0` while the program
fails with the scale division. -/
theorem C6_annual_energy_projection_witness :
    TotalEnergy 50 (-1/5) 2 =
        some (ratTrunc ((ScaledEnergyVsAverageTemperature 50 (-1/5) 2).sum)) ∧
      (ScaledEnergyVsAverageTemperature (-31) (-1/5) 2).sum = 0 ∧
      TotalEnergy (-31) (-1/5) 2 = none := by
  have hE : EnergyTemperatureList.get? 60 = some 0 := rfl
  have hD : DaysPerYearAverageTemperature.get? 60 = some (14023/4000) := rfl
  have hget := zipWith_get?
    (fun temp days =>
      if temp < 50 then ((-1/5) * temp + 2) * days * HoursForHeatingADay else 0)
    60 _ _ _ _ hE hD
  have hmem : (154253/1000 : ℚ) ∈ ScaledEnergyVsAverageTemperature 50 (-1/5) 2 := by
    apply List.get?_mem
    rw [ScaledEnergyVsAverageTemperature, hget]
    norm_num [HoursForHeatingADay]
  have hm : listMax (ScaledEnergyVsAverageTemperature 50 (-1/5) 2) ≠ 0 := by
    have hle := mem_le_listMax _ _ hmem
    intro h0
    rw [h0] at hle
    norm_num at hle
  refine ⟨C6_annual_energy_projection_amended.1 50 (-1/5) 2 hm,
    C6_annual_energy_projection_amended.2.2 (-31) (-1/5) 2 (by norm_num)⟩

end HouseHeating
